import Mathlib

/-!
Verification development for the preconf-rpc gateway.

This file gives a shallow embedding of the lookahead subsystem and its
dispatcher: the slot-indexed lookahead table (src/lookahead/mod.rs), the
relay lookahead provider (src/lookahead/provider.rs), the lookahead
manager and URL resolution (src/lookahead/manager.rs), the relay client
status handling (src/relay_client/client.rs), the config parser
(src/config.rs), the forward HTTP handler (src/forward_service.rs) and
the multi-beacon failover ordering (src/common/client.rs).

Machine integers (u64 slots, epochs) are modelled as Nat: the only
arithmetic performed on them is division, modulo and comparison, none of
which can overflow.  The concurrent DashMap is modelled as an
association list with unique keys; network responses are explicit
inputs to the step functions.  Rust panics (expect / unwrap) are
modelled as explicit outcome constructors so that divergence is
distinguishable from returned errors.
-/

namespace PreconfRpc

instance {ε α : Type} [DecidableEq ε] [DecidableEq α] : DecidableEq (Except ε α)
  | .ok a, .ok b =>
    if h : a = b then .isTrue (by rw [h]) else .isFalse (by simp [h])
  | .ok _, .error _ => .isFalse (by simp)
  | .error _, .ok _ => .isFalse (by simp)
  | .error e, .error f =>
    if h : e = f then .isTrue (by rw [h]) else .isFalse (by simp [h])

/-- Constant EPOCH_SLOTS from src/constants.rs. -/
def EPOCH_SLOTS : Nat := 32

/-- BLS public key (48 bytes, equality by byte value), modelled as a Nat. -/
abbrev BlsPublicKey := Nat

/-- BLS signature (96 bytes, treated as opaque), modelled as a Nat. -/
abbrev BlsSignature := Nat

/-- PreconferElection from src/preconf/election.rs. -/
structure PreconferElection where
  preconfer_pubkey : BlsPublicKey
  slot_number : Nat
  chain_id : Nat
  gas_limit : Nat
deriving DecidableEq, Repr, Inhabited

/-- SignedPreconferElection from src/preconf/election.rs. -/
structure SignedPreconferElection where
  message : PreconferElection
  signature : BlsSignature
deriving DecidableEq, Repr, Inhabited

/-- Method SignedPreconferElection::slot. -/
def SignedPreconferElection.slot (e : SignedPreconferElection) : Nat :=
  e.message.slot_number

/-- Method SignedPreconferElection::preconfer_pubkey. -/
def SignedPreconferElection.preconfer_pubkey (e : SignedPreconferElection) : BlsPublicKey :=
  e.message.preconfer_pubkey

/-- LookaheadEntry from src/lookahead/mod.rs. -/
structure LookaheadEntry where
  url : String
  election : SignedPreconferElection
deriving DecidableEq, Repr, Inhabited

/-- Method LookaheadEntry::slot. -/
def LookaheadEntry.slot (e : LookaheadEntry) : Nat :=
  e.election.slot

/-- Method LookaheadEntry::preconfer_pubkey. -/
def LookaheadEntry.preconfer_pubkey (e : LookaheadEntry) : BlsPublicKey :=
  e.election.message.preconfer_pubkey

/-- Insertion into an association list with unique keys: replaces the value
at an existing key in place, otherwise appends.  Models DashMap::insert
upsert semantics on the list representation of the map. -/
def assocInsert {β : Type} (m : List (Nat × β)) (k : Nat) (v : β) : List (Nat × β) :=
  match m with
  | [] => [(k, v)]
  | p :: rest => if p.1 = k then (k, v) :: rest else p :: assocInsert rest k v

/-- Enum Lookahead from src/lookahead/mod.rs: either a single optional
entry or a slot-keyed concurrent map, the latter modelled as an
association list with unique keys. -/
inductive Lookahead where
  | Single : Option LookaheadEntry → Lookahead
  | Multi : List (Nat × LookaheadEntry) → Lookahead
deriving DecidableEq, Repr, Inhabited

/-- Method Lookahead::clear_slots: on Multi, retain exactly the pairs
whose slot key is at least head_slot; on Single, do nothing. -/
def Lookahead.clear_slots : Lookahead → Nat → Lookahead
  | .Single s, _ => .Single s
  | .Multi m, head_slot => .Multi (m.filter (fun p => decide (head_slot ≤ p.1)))

/-- Method Lookahead::insert: upsert at the given slot key. -/
def Lookahead.insert : Lookahead → Nat → LookaheadEntry → Lookahead
  | .Single _, _, entry => .Single (some entry)
  | .Multi m, election_slot, entry => .Multi (assocInsert m election_slot entry)

/-- Models Iterator::min_by_key over the map entries keyed by the value
slot (the expression m.iter().min_by_key on entry.slot() in
Lookahead::get_next_elected_preconfer): returns the first pair in
iteration order whose entry has the minimal election slot. -/
def minBySlot : List (Nat × LookaheadEntry) → Option (Nat × LookaheadEntry)
  | [] => none
  | p :: rest =>
    match minBySlot rest with
    | none => some p
    | some q => if q.2.slot < p.2.slot then some q else some p

/-- Method Lookahead::get_next_elected_preconfer from src/lookahead/mod.rs. -/
def Lookahead.get_next_elected_preconfer : Lookahead → Option LookaheadEntry
  | .Single s => s
  | .Multi m => (minBySlot m).map (·.2)

/-- Slot keys currently present in the table (Single holds no keys). -/
def Lookahead.tableKeys : Lookahead → List Nat
  | .Single _ => []
  | .Multi m => m.map (·.1)

/-- Entries currently present in the table. -/
def Lookahead.tableEntries : Lookahead → List LookaheadEntry
  | .Single s => s.toList
  | .Multi m => m.map (·.2)

/-- Error enum RelayClientError from src/relay_client/error.rs.  A JSON
decode failure of the response body surfaces through the From conversion
as the ReqwestError variant, exactly as the question-mark operator does
in the source. -/
inductive RelayClientError where
  | ReqwestError
  | RelayError (status_code : Nat) (error : String)
deriving DecidableEq, Repr

/-- Outcome of one HTTP exchange performed by the relay client: either a
transport failure of send, or a response carrying a status code and a
raw body.  The body is kept abstract as a String; JSON decoding of it is
a parameter of the functions below, standing for serde. -/
inductive RelayHttpOutcome where
  | transport_error
  | response (status : Nat) (body : String)
deriving DecidableEq, Repr

/-- Method RelayClient::get_elected_preconfer_for_slot from
src/relay_client/client.rs, as a function of the HTTP outcome of the GET
to the per-slot preconfer path.  The source checks only for status 204
(returning Ok None) and otherwise JSON-decodes the body, whatever the
status; a decode failure propagates as a ReqwestError. -/
def get_elected_preconfer_for_slot
    (decodeElection : String → Option SignedPreconferElection)
    (outcome : RelayHttpOutcome) :
    Except RelayClientError (Option SignedPreconferElection) :=
  match outcome with
  | .transport_error => .error .ReqwestError
  | .response status body =>
    if status = 204 then .ok none
    else
      match decodeElection body with
      | some election => .ok (some election)
      | none => .error .ReqwestError

/-- Result of one relay's get_elected_preconfers_for_epoch call, as seen
by the provider after join_all. -/
abbrev RelayFetchResult :=
  Except RelayClientError (Option (List SignedPreconferElection))

/-- Struct LookaheadContext from src/lookahead/provider.rs. -/
structure LookaheadContext where
  head_slot : Nat
  curr_lookahead_epoch : Nat
deriving DecidableEq, Repr

/-- Struct RelayLookaheadProvider from src/lookahead/provider.rs.  The
relay client list is kept as the list of relay URLs; the network replies
of those relays are passed explicitly to the step functions. -/
structure RelayLookaheadProvider where
  lookahead : Lookahead
  preconfer_registry : List (BlsPublicKey × String)
  relays : List String
  context : LookaheadContext
deriving DecidableEq, Repr

/-- Constructor RelayLookaheadProvider::new: context starts at head_slot
zero and curr_lookahead_epoch zero. -/
def RelayLookaheadProvider.new (lookahead : Lookahead) (relay_urls : List String)
    (preconfer_registry : List (BlsPublicKey × String)) : RelayLookaheadProvider :=
  { lookahead := lookahead
    preconfer_registry := preconfer_registry
    relays := relay_urls
    context := { head_slot := 0, curr_lookahead_epoch := 0 } }

/-- Method RelayLookaheadProvider::add_elected_preconfer_to_lookahead:
the entry url is the registry lookup of the election pubkey, defaulting
to the empty string, and the entry is upserted at the election slot. -/
def RelayLookaheadProvider.add_elected_preconfer_to_lookahead
    (self : RelayLookaheadProvider) (election : SignedPreconferElection) :
    RelayLookaheadProvider :=
  let preconfer_url := (self.preconfer_registry.lookup election.preconfer_pubkey).getD ""
  let entry : LookaheadEntry := { url := preconfer_url, election := election }
  { self with lookahead := self.lookahead.insert election.slot entry }

/-- Method RelayLookaheadProvider::fetch_preconfer_lookahead, as a
function of the joined relay results (one per relay): successful
non-empty lists are folded into the lookahead in order, failures and
empty results are skipped, and curr_lookahead_epoch is set at the end. -/
def RelayLookaheadProvider.fetch_preconfer_lookahead
    (self : RelayLookaheadProvider) (epoch : Nat)
    (results : List RelayFetchResult) : RelayLookaheadProvider :=
  let s := results.foldl
    (fun s result =>
      match result with
      | .ok (some preconfer_elections) =>
        preconfer_elections.foldl
          (fun s election => s.add_elected_preconfer_to_lookahead election) s
      | .ok none => s
      | .error _ => s)
    self
  { s with context := { s.context with curr_lookahead_epoch := epoch } }

/-- Method RelayLookaheadProvider::on_new_head_event, as a function of
the head event slot and of the relay results that the fetch step would
receive if it runs.  Besides the new provider state it returns the list
of epochs for which a relay fetch was issued (empty or a singleton), so
that the absence of a fetch is observable. -/
def RelayLookaheadProvider.on_new_head_event
    (self : RelayLookaheadProvider) (eventSlot : Nat)
    (results : List RelayFetchResult) : RelayLookaheadProvider × List Nat :=
  let curr_epoch := eventSlot / EPOCH_SLOTS
  let head_slot := eventSlot
  if head_slot ≤ self.context.head_slot then
    (self, [])
  else
    let s := { self with context := { self.context with head_slot := head_slot } }
    let s := { s with lookahead := s.lookahead.clear_slots head_slot }
    if s.context.head_slot % 6 = 0 then
      (s.fetch_preconfer_lookahead (curr_epoch + 1) results, [curr_epoch + 1])
    else
      (s, [])

/-- Run of the provider over a finite sequence of received head events,
each event paired with the relay results available for its fetch step;
models the receive loop of RelayLookaheadProvider::run. -/
def RelayLookaheadProvider.processEvents (self : RelayLookaheadProvider)
    (events : List (Nat × List RelayFetchResult)) : RelayLookaheadProvider :=
  events.foldl (fun s ev => (s.on_new_head_event ev.1 ev.2).1) self

/-- Elections contained in successful non-empty relay results; exactly
the elections the fetch step would insert. -/
def deliveredElections : List RelayFetchResult → List SignedPreconferElection
  | [] => []
  | .ok (some l) :: rest => l ++ deliveredElections rest
  | .ok none :: rest => deliveredElections rest
  | .error _ :: rest => deliveredElections rest

/-- Parsed URL value of the external url crate, identified by its text. -/
structure Url where
  text : String
deriving DecidableEq, Repr, Inhabited

/-- Modelled from the spec: Url::from_str of the external url crate
(out-of-scope low-level collaborator).  The spec states that an entry
url that is empty or not a valid URL fails to parse; a valid URL here
must have a non-empty scheme part before a colon, so the empty string
parses to none.  Theorems that depend on URL parsing are stated over an
arbitrary parse function and use this model only at concrete inputs. -/
def url_from_str (s : String) : Option Url :=
  let cs := s.toList
  let scheme := cs.takeWhile (fun c => c != ':')
  if scheme.length > 0 ∧ scheme.length < cs.length then some { text := s } else none

/-- Enum LookaheadProvider from src/lookahead/provider.rs (the broadcast
receiver handle carried by the Relay variant is not part of the state). -/
inductive LookaheadProvider where
  | Relay (provider : RelayLookaheadProvider)
  | None
deriving DecidableEq, Repr

/-- Enum LookaheadProviderManager from src/lookahead/manager.rs. -/
inductive LookaheadProviderManager where
  | Initialized (provider : LookaheadProvider)
  | Running
deriving DecidableEq, Repr

/-- Enum UrlProvider from src/lookahead/manager.rs. -/
inductive UrlProvider where
  | LookaheadEntry
  | UrlMap (m : List (BlsPublicKey × Url))
deriving DecidableEq, Repr

/-- Struct LookaheadManager from src/lookahead/manager.rs. -/
structure LookaheadManager where
  lookahead : Lookahead
  provider_manager : Option LookaheadProviderManager
  url_provider : UrlProvider
deriving DecidableEq, Repr

/-- Constructor LookaheadManager::new. -/
def LookaheadManager.new (lookahead : Lookahead)
    (lookahead_provider : LookaheadProvider) (url_provider : UrlProvider) :
    LookaheadManager :=
  { lookahead := lookahead
    provider_manager := some (.Initialized lookahead_provider)
    url_provider := url_provider }

/-- Outcome of LookaheadManager::run_provider: Ok, an eyre error from
bail, or a panic from expect. -/
inductive RunProviderOutcome where
  | ok
  | error (msg : String)
  | panicked (msg : String)
deriving DecidableEq, Repr

/-- Method LookaheadManager::run_provider from src/lookahead/manager.rs.
The Option take() replaces the field with none before the match; the
Initialized arm spawns the provider task and stores Running back, while
the Running arm bails leaving the taken none in place.  A call on an
already-none field panics on the expect. -/
def LookaheadManager.run_provider (self : LookaheadManager) :
    RunProviderOutcome × LookaheadManager :=
  match self.provider_manager with
  | none => (.panicked "provider manager should never be None", self)
  | some provider_manager =>
    let taken := { self with provider_manager := none }
    match provider_manager with
    | .Initialized _ =>
      (.ok, { taken with provider_manager := some .Running })
    | .Running => (.error "context provider is already running.", taken)

/-- Outcome of LookaheadManager::get_url: a URL, an eyre error, or a
panic from the expect on Url::from_str. -/
inductive GetUrlOutcome where
  | ok (url : Url)
  | error (msg : String)
  | panicked (msg : String)
deriving DecidableEq, Repr

/-- Method LookaheadManager::get_url from src/lookahead/manager.rs,
parameterised by the URL parse function standing for Url::from_str.  In
LookaheadEntry mode a parse failure hits the expect and panics; in
UrlMap mode a missing pubkey is an error through wrap_err. -/
def LookaheadManager.get_url (self : LookaheadManager)
    (parse : String → Option Url) : GetUrlOutcome :=
  match self.lookahead.get_next_elected_preconfer with
  | none => .error "no lookahead provider found"
  | some entry =>
    match self.url_provider with
    | .LookaheadEntry =>
      match parse entry.url with
      | some u => .ok u
      | none => .panicked "not a valid url"
    | .UrlMap m =>
      match m.lookup entry.election.preconfer_pubkey with
      | some u => .ok u
      | none =>
        .error ("could not find key for pubkey " ++
          toString entry.election.preconfer_pubkey)

/-- Enum Provider from src/config.rs. -/
inductive ConfigProvider where
  | Lookahead
  | Registry
deriving DecidableEq, Repr

/-- Struct Lookahead from src/config.rs (the per-chain config section),
named ConfigLookahead here to keep it apart from the table type. -/
structure ConfigLookahead where
  chain_id : Nat
  relays : List String
  registry : Option (List (BlsPublicKey × Url))
  provider : ConfigProvider
deriving DecidableEq, Repr

/-- Struct LookaheadHelper, the raw shape serde produces inside the
manual Deserialize impl for the config Lookahead in src/config.rs. -/
structure LookaheadHelper where
  chain_id : Nat
  relays : List String
  registry : Option (List (BlsPublicKey × Url))
  url_provider : ConfigProvider
deriving DecidableEq, Repr

/-- Validation step of the manual Deserialize impl for the config
Lookahead in src/config.rs: reject exactly when url_provider is
Registry and the registry field is absent. -/
def deserializeLookahead (helper : LookaheadHelper) :
    Except String ConfigLookahead :=
  match helper.url_provider, helper.registry with
  | .Registry, none =>
    .error "registry map is mandatory when url-provider is set to registry"
  | _, _ =>
    .ok { chain_id := helper.chain_id
          relays := helper.relays
          registry := helper.registry
          provider := helper.url_provider }

/-- Struct Config as used by lookahead_managers_from_config in
src/lookahead/manager.rs. -/
structure Config where
  lookahead_providers_relays : List ConfigLookahead
  beacon_nodes : List String
deriving DecidableEq, Repr

/-- Function lookahead_managers_from_config from
src/lookahead/manager.rs: for each configured chain it builds a fresh
empty map-backed table, a relay provider over that table with an empty
preconfer registry (HashMap::new()), and the chain's URL policy; the
expect on a missing registry in Registry mode is modelled as none. -/
def lookahead_managers_from_config (config : Config) :
    Option (List (Nat × LookaheadManager)) :=
  config.lookahead_providers_relays.foldl
    (fun acc r_c =>
      match acc with
      | none => none
      | some map =>
        let lookahead := Lookahead.Multi []
        let provider :=
          LookaheadProvider.Relay (RelayLookaheadProvider.new lookahead r_c.relays [])
        match r_c.provider with
        | .Lookahead =>
          some (assocInsert map r_c.chain_id
            (LookaheadManager.new lookahead provider .LookaheadEntry))
        | .Registry =>
          match r_c.registry with
          | some reg =>
            some (assocInsert map r_c.chain_id
              (LookaheadManager.new lookahead provider (.UrlMap reg)))
          | none => none)
    (some [])

/-- Request body bytes. -/
abbrev Bytes := List Nat

/-- HTTP header map, as a list of name-value pairs. -/
abbrev Headers := List (String × String)

/-- Upstream reply to the forwarded POST: the status the upstream
returned and the outcome of reading its body bytes (res.bytes() may
itself fail with a transport error). -/
structure UpstreamResponse where
  status : Nat
  body_result : Except Unit Bytes
deriving DecidableEq, Repr

/-- Function inner_forward_request from src/forward_service.rs, as a
function of the transport outcome of the POST it issues: a send failure
or a body-read failure propagates as an error, otherwise the body bytes
are returned.  The upstream status is dropped. -/
def inner_forward_request (upstream : Except Unit UpstreamResponse) :
    Except Unit Bytes :=
  match upstream with
  | .error _ => .error ()
  | .ok res => res.body_result

/-- Outbound request that inner_forward_request issues:
client.post(to_addr).body(bytes).headers(headers). -/
structure OutboundRequest where
  to_addr : Url
  body : Bytes
  headers : Headers
deriving DecidableEq, Repr

/-- Body of a handler response: plain text for the error paths, raw
bytes for the proxied upstream body. -/
inductive HandlerBody where
  | text (s : String)
  | raw (b : Bytes)
deriving DecidableEq, Repr

/-- Response produced by the axum handler: a status code and a body. -/
structure HandlerResponse where
  status : Nat
  body : HandlerBody
deriving DecidableEq, Repr

/-- Outcome of one handler invocation; a panic escaping the handler
(from the expect inside get_url) is kept distinct from any response. -/
inductive HandlerOutcome where
  | response (r : HandlerResponse)
  | panicked (msg : String)
deriving DecidableEq, Repr

/-- Handler scan_id_forward_request from src/forward_service.rs for the
POST chain_id route, as a function of the manager map, the path chain
id, the incoming headers and body, the URL parse function and the
upstream transport outcome.  It also returns the outbound request it
issues, if any, so that verbatim forwarding is observable.  A successful
exchange is returned as the upstream body bytes, which axum encodes as
a 200 response; errors follow the source's status and text choices. -/
def scan_id_forward_request (managers : List (Nat × LookaheadManager))
    (chain_id : Nat) (headers : Headers) (body : Bytes)
    (parse : String → Option Url)
    (upstream : Except Unit UpstreamResponse) :
    Option OutboundRequest × HandlerOutcome :=
  match managers.lookup chain_id with
  | none =>
    (none, .response
      { status := 400
        body := .text ("no lookahead provider found for chain-id " ++ toString chain_id) })
  | some manager =>
    match manager.get_url parse with
    | .ok url =>
      let req : OutboundRequest := { to_addr := url, body := body, headers := headers }
      match inner_forward_request upstream with
      | .ok res_bytes =>
        (some req, .response { status := 200, body := .raw res_bytes })
      | .error _ =>
        (some req, .response { status := 500, body := .text "error while forwarding request" })
    | .error err => (none, .response { status := 500, body := .text err })
    | .panicked msg => (none, .panicked msg)

/-- Handler forward_request from src/forward_service.rs for the bare
POST route. -/
def forward_request : HandlerResponse :=
  { status := 400, body := .text "missing chain-id parameter" }

/-- Swap of two positions of a list, modelling Vec::swap; none models
the out-of-bounds panic. -/
def listSwap {α : Type} (l : List α) (i j : Nat) : Option (List α) :=
  match l.get? i, l.get? j with
  | some a, some b => some ((l.set i b).set j a)
  | _, _ => none

/-- Method MultiBeaconClient::beacon_clients_by_last_response from
src/common/client.rs, over the indexed client list and the loaded best
instance id: clone the list and, when the best id is non-zero, swap the
position holding that id with position zero.  The unwrap on a missing
id is modelled as none. -/
def beacon_clients_by_last_response {α : Type} (beacon_clients : List (Nat × α))
    (best_beacon_instance : Nat) : Option (List (Nat × α)) :=
  let instances := beacon_clients
  let index := best_beacon_instance
  if index ≠ 0 then
    match instances.findIdx? (fun p => p.1 == index) with
    | some pos => listSwap instances 0 pos
    | none => none
  else
    some instances

/-- Election fixture at a given slot, used by concrete witnesses and
counterexamples. -/
def electionAt (s : Nat) : SignedPreconferElection :=
  { message := { preconfer_pubkey := 0, slot_number := s, chain_id := 1, gas_limit := 0 }
    signature := 0 }

/-- Entry fixture with an empty url. -/
def entryAt (s : Nat) : LookaheadEntry :=
  { url := "", election := electionAt s }

/-- Entry fixture with a given url. -/
def entryAtUrl (s : Nat) (u : String) : LookaheadEntry :=
  { url := u, election := electionAt s }

/-- Table built through the public insert API whose slot keys disagree
with the stored elections' slots: key 0 holds a slot-10 election and
key 1 holds a slot-0 election. -/
def mismatchedTable : Lookahead :=
  ((Lookahead.Multi []).insert 0 (entryAt 10)).insert 1 (entryAt 0)

/-- Fresh relay provider over an empty map-backed table, as the manager
construction builds it. -/
def freshRelayProvider : RelayLookaheadProvider :=
  RelayLookaheadProvider.new (.Multi []) ["relay"] []

/-- Manager in LookaheadEntry mode whose next entry carries an empty
url. -/
def emptyUrlManager : LookaheadManager :=
  { lookahead := Lookahead.Multi [(0, entryAt 0)]
    provider_manager := some (.Initialized .None)
    url_provider := .LookaheadEntry }

/-- Manager in LookaheadEntry mode whose next entry carries a parseable
url. -/
def goodUrlManager : LookaheadManager :=
  { lookahead := Lookahead.Multi [(100, entryAtUrl 100 "http://upstream")]
    provider_manager := some (.Initialized .None)
    url_provider := .LookaheadEntry }

/-- Manager whose provider has already been started. -/
def runningManager : LookaheadManager :=
  { lookahead := Lookahead.Multi []
    provider_manager := some .Running
    url_provider := .LookaheadEntry }

/-- Raw config section selecting registry mode with a present but empty
registry table. -/
def emptyRegistryHelper : LookaheadHelper :=
  { chain_id := 1, relays := [], registry := some [], url_provider := .Registry }

/-- Configuration with a single chain in LookaheadEntry mode. -/
def oneChainConfig : Config :=
  { lookahead_providers_relays :=
      [{ chain_id := 1, relays := ["relay"], registry := none, provider := .Lookahead }]
    beacon_nodes := ["node"] }

lemma mem_assocInsert {β : Type} {m : List (Nat × β)} {k : Nat} {v : β} :
    ∀ x ∈ assocInsert m k v, x = (k, v) ∨ x ∈ m := by
  induction m with
  | nil =>
    intro x hx
    simp [assocInsert] at hx
    exact Or.inl hx
  | cons p rest ih =>
    intro x hx
    by_cases h : p.1 = k
    · simp only [assocInsert, if_pos h, List.mem_cons] at hx
      rcases hx with h1 | h2
      · exact Or.inl h1
      · exact Or.inr (List.mem_cons_of_mem _ h2)
    · simp only [assocInsert, if_neg h, List.mem_cons] at hx
      rcases hx with h1 | h2
      · exact Or.inr (h1 ▸ List.mem_cons_self _ _)
      · rcases ih x h2 with h3 | h4
        · exact Or.inl h3
        · exact Or.inr (List.mem_cons_of_mem _ h4)

lemma minBySlot_eq_none {m : List (Nat × LookaheadEntry)} :
    minBySlot m = none ↔ m = [] := by
  cases m with
  | nil => simp [minBySlot]
  | cons p rest =>
    simp only [minBySlot]
    cases h : minBySlot rest <;> simp [h]
    split <;> simp

lemma minBySlot_spec {m : List (Nat × LookaheadEntry)} :
    ∀ p, minBySlot m = some p → p ∈ m ∧ ∀ q ∈ m, p.2.slot ≤ q.2.slot := by
  induction m with
  | nil => intro p hp; simp [minBySlot] at hp
  | cons a rest ih =>
    intro p hp
    simp only [minBySlot] at hp
    cases h : minBySlot rest with
    | none =>
      rw [h] at hp
      have hrest : rest = [] := minBySlot_eq_none.mp h
      subst hrest
      simp at hp
      subst hp
      refine ⟨List.mem_cons_self _ _, ?_⟩
      intro q hq
      simp at hq
      simp [hq]
    | some q =>
      rw [h] at hp
      dsimp only at hp
      rcases ih q h with ⟨hqmem, hqmin⟩
      by_cases hlt : q.2.slot < a.2.slot
      · rw [if_pos hlt] at hp
        cases hp
        refine ⟨List.mem_cons_of_mem _ hqmem, ?_⟩
        intro r hr
        rcases List.mem_cons.mp hr with h1 | h2
        · exact h1 ▸ Nat.le_of_lt hlt
        · exact hqmin r h2
      · rw [if_neg hlt] at hp
        cases hp
        refine ⟨List.mem_cons_self _ _, ?_⟩
        intro r hr
        rcases List.mem_cons.mp hr with h1 | h2
        · simp [h1]
        · exact Nat.le_trans (Nat.le_of_not_lt hlt) (hqmin r h2)

lemma tableKeys_clear_slots_le {l : Lookahead} {h : Nat} :
    ∀ k ∈ (l.clear_slots h).tableKeys, h ≤ k := by
  cases l with
  | Single s => intro k hk; simp [Lookahead.clear_slots, Lookahead.tableKeys] at hk
  | Multi m =>
    intro k hk
    simp only [Lookahead.clear_slots, Lookahead.tableKeys, List.mem_map] at hk
    rcases hk with ⟨p, hp, hpk⟩
    have := List.of_mem_filter hp
    simp at this
    exact hpk ▸ this

lemma tableEntries_clear_slots_subset {l : Lookahead} {h : Nat} :
    ∀ e ∈ (l.clear_slots h).tableEntries, e ∈ l.tableEntries := by
  cases l with
  | Single s => intro e he; simpa [Lookahead.clear_slots, Lookahead.tableEntries] using he
  | Multi m =>
    intro e he
    simp only [Lookahead.clear_slots, Lookahead.tableEntries, List.mem_map] at he ⊢
    rcases he with ⟨p, hp, hpe⟩
    exact ⟨p, List.mem_of_mem_filter hp, hpe⟩

lemma tableKeys_insert_mem {l : Lookahead} {key : Nat} {v : LookaheadEntry} :
    ∀ k ∈ (l.insert key v).tableKeys, k = key ∨ k ∈ l.tableKeys := by
  cases l with
  | Single s => intro k hk; simp [Lookahead.insert, Lookahead.tableKeys] at hk
  | Multi m =>
    intro k hk
    simp only [Lookahead.insert, Lookahead.tableKeys, List.mem_map] at hk ⊢
    rcases hk with ⟨p, hp, hpk⟩
    rcases mem_assocInsert p hp with h1 | h2
    · left; rw [← hpk, h1]
    · right; exact ⟨p, h2, hpk⟩

lemma tableEntries_insert_mem {l : Lookahead} {key : Nat} {v : LookaheadEntry} :
    ∀ e ∈ (l.insert key v).tableEntries, e = v ∨ e ∈ l.tableEntries := by
  cases l with
  | Single s =>
    intro e he
    simp only [Lookahead.insert, Lookahead.tableEntries, Option.toList_some,
      List.mem_singleton] at he
    exact Or.inl he
  | Multi m =>
    intro e he
    simp only [Lookahead.insert, Lookahead.tableEntries, List.mem_map] at he ⊢
    rcases he with ⟨p, hp, hpe⟩
    rcases mem_assocInsert p hp with h1 | h2
    · left; rw [← hpe, h1]
    · right; exact ⟨p, h2, hpe⟩

lemma add_elected_preserved (p : RelayLookaheadProvider) (e : SignedPreconferElection) :
    (p.add_elected_preconfer_to_lookahead e).context = p.context ∧
    (p.add_elected_preconfer_to_lookahead e).preconfer_registry = p.preconfer_registry :=
  ⟨rfl, rfl⟩

lemma add_elected_keys {p : RelayLookaheadProvider} {e : SignedPreconferElection} :
    ∀ k ∈ (p.add_elected_preconfer_to_lookahead e).lookahead.tableKeys,
      k = e.slot ∨ k ∈ p.lookahead.tableKeys := by
  intro k hk
  exact tableKeys_insert_mem k hk

lemma add_elected_entries {p : RelayLookaheadProvider} {e : SignedPreconferElection}
    (hreg : p.preconfer_registry = []) :
    ∀ x ∈ (p.add_elected_preconfer_to_lookahead e).lookahead.tableEntries,
      x.url = "" ∨ x ∈ p.lookahead.tableEntries := by
  intro x hx
  rcases tableEntries_insert_mem x hx with h1 | h2
  · left
    rw [h1]
    simp [RelayLookaheadProvider.add_elected_preconfer_to_lookahead, hreg]
  · exact Or.inr h2

lemma foldl_add_preserved (els : List SignedPreconferElection) :
    ∀ p : RelayLookaheadProvider,
      ((els.foldl (fun s e => s.add_elected_preconfer_to_lookahead e) p).context
          = p.context ∧
        (els.foldl (fun s e => s.add_elected_preconfer_to_lookahead e) p).preconfer_registry
          = p.preconfer_registry) := by
  induction els with
  | nil => intro p; exact ⟨rfl, rfl⟩
  | cons e rest ih =>
    intro p
    simpa [List.foldl_cons] using ih (p.add_elected_preconfer_to_lookahead e)

lemma foldl_add_keys (els : List SignedPreconferElection) :
    ∀ (p : RelayLookaheadProvider)
      (k : Nat),
      k ∈ (els.foldl (fun s e => s.add_elected_preconfer_to_lookahead e) p).lookahead.tableKeys →
      k ∈ p.lookahead.tableKeys ∨ ∃ e ∈ els, k = e.slot := by
  induction els with
  | nil => intro p k hk; exact Or.inl hk
  | cons e rest ih =>
    intro p k hk
    simp only [List.foldl_cons] at hk
    rcases ih _ k hk with h1 | h2
    · rcases add_elected_keys k h1 with h3 | h4
      · exact Or.inr ⟨e, List.mem_cons_self _ _, h3⟩
      · exact Or.inl h4
    · rcases h2 with ⟨f, hf, hkf⟩
      exact Or.inr ⟨f, List.mem_cons_of_mem _ hf, hkf⟩

lemma foldl_add_entries (els : List SignedPreconferElection) :
    ∀ (p : RelayLookaheadProvider), p.preconfer_registry = [] →
      ∀ x ∈ (els.foldl (fun s e => s.add_elected_preconfer_to_lookahead e) p).lookahead.tableEntries,
        x.url = "" ∨ x ∈ p.lookahead.tableEntries := by
  induction els with
  | nil => intro p _ x hx; exact Or.inr hx
  | cons e rest ih =>
    intro p hreg x hx
    simp only [List.foldl_cons] at hx
    have hreg2 : (p.add_elected_preconfer_to_lookahead e).preconfer_registry = [] :=
      (add_elected_preserved p e).2.trans hreg
    rcases ih _ hreg2 x hx with h1 | h2
    · exact Or.inl h1
    · exact add_elected_entries hreg x h2

lemma fetch_preserved (rs : List RelayFetchResult) :
    ∀ (p : RelayLookaheadProvider) (epoch : Nat),
      (p.fetch_preconfer_lookahead epoch rs).context.head_slot = p.context.head_slot ∧
      (p.fetch_preconfer_lookahead epoch rs).preconfer_registry = p.preconfer_registry := by
  have main : ∀ (rs : List RelayFetchResult) (p : RelayLookaheadProvider),
      ((rs.foldl (fun s result =>
          match result with
          | .ok (some preconfer_elections) =>
            preconfer_elections.foldl
              (fun s election => s.add_elected_preconfer_to_lookahead election) s
          | .ok none => s
          | .error _ => s) p).context = p.context ∧
        (rs.foldl (fun s result =>
          match result with
          | .ok (some preconfer_elections) =>
            preconfer_elections.foldl
              (fun s election => s.add_elected_preconfer_to_lookahead election) s
          | .ok none => s
          | .error _ => s) p).preconfer_registry = p.preconfer_registry) := by
    intro rs
    induction rs with
    | nil => intro p; exact ⟨rfl, rfl⟩
    | cons r rest ih =>
      intro p
      simp only [List.foldl_cons]
      rcases r with err | opt
      · exact ih p
      · rcases opt with _ | l
        · exact ih p
        · rcases ih (l.foldl (fun s election => s.add_elected_preconfer_to_lookahead election) p)
            with ⟨h1, h2⟩
          rcases foldl_add_preserved l p with ⟨h3, h4⟩
          exact ⟨h1.trans h3, h2.trans h4⟩
  intro p epoch
  rcases main rs p with ⟨h1, h2⟩
  refine ⟨?_, ?_⟩
  · simp only [RelayLookaheadProvider.fetch_preconfer_lookahead]
    rw [h1]
  · simp only [RelayLookaheadProvider.fetch_preconfer_lookahead]
    rw [h2]

lemma fetch_keys (rs : List RelayFetchResult) :
    ∀ (p : RelayLookaheadProvider) (epoch : Nat) (k : Nat),
      k ∈ (p.fetch_preconfer_lookahead epoch rs).lookahead.tableKeys →
      k ∈ p.lookahead.tableKeys ∨ ∃ e ∈ deliveredElections rs, k = e.slot := by
  have main : ∀ (rs : List RelayFetchResult) (p : RelayLookaheadProvider) (k : Nat),
      k ∈ ((rs.foldl (fun s result =>
          match result with
          | .ok (some preconfer_elections) =>
            preconfer_elections.foldl
              (fun s election => s.add_elected_preconfer_to_lookahead election) s
          | .ok none => s
          | .error _ => s) p).lookahead.tableKeys) →
      k ∈ p.lookahead.tableKeys ∨ ∃ e ∈ deliveredElections rs, k = e.slot := by
    intro rs
    induction rs with
    | nil => intro p k hk; exact Or.inl hk
    | cons r rest ih =>
      intro p k hk
      simp only [List.foldl_cons] at hk
      rcases r with err | opt
      · rcases ih p k hk with h1 | h2
        · exact Or.inl h1
        · rcases h2 with ⟨e, he, hke⟩
          exact Or.inr ⟨e, by simpa [deliveredElections] using he, hke⟩
      · rcases opt with _ | l
        · rcases ih p k hk with h1 | h2
          · exact Or.inl h1
          · rcases h2 with ⟨e, he, hke⟩
            exact Or.inr ⟨e, by simpa [deliveredElections] using he, hke⟩
        · rcases ih _ k hk with h1 | h2
          · rcases foldl_add_keys l p k h1 with h3 | h4
            · exact Or.inl h3
            · rcases h4 with ⟨e, he, hke⟩
              exact Or.inr ⟨e, by simp [deliveredElections, he], hke⟩
          · rcases h2 with ⟨e, he, hke⟩
            exact Or.inr ⟨e, by simp [deliveredElections, he], hke⟩
  intro p epoch k hk
  exact main rs p k hk

lemma fetch_entries (rs : List RelayFetchResult) :
    ∀ (p : RelayLookaheadProvider) (epoch : Nat) (x : LookaheadEntry),
      x ∈ (p.fetch_preconfer_lookahead epoch rs).lookahead.tableEntries →
      p.preconfer_registry = [] →
      x.url = "" ∨ x ∈ p.lookahead.tableEntries := by
  have main : ∀ (rs : List RelayFetchResult) (p : RelayLookaheadProvider),
      p.preconfer_registry = [] →
      ∀ x ∈ ((rs.foldl (fun s result =>
          match result with
          | .ok (some preconfer_elections) =>
            preconfer_elections.foldl
              (fun s election => s.add_elected_preconfer_to_lookahead election) s
          | .ok none => s
          | .error _ => s) p).lookahead.tableEntries),
        x.url = "" ∨ x ∈ p.lookahead.tableEntries := by
    intro rs
    induction rs with
    | nil => intro p _ x hx; exact Or.inr hx
    | cons r rest ih =>
      intro p hreg x hx
      simp only [List.foldl_cons] at hx
      rcases r with err | opt
      · exact ih p hreg x hx
      · rcases opt with _ | l
        · exact ih p hreg x hx
        · have hreg2 :
              (l.foldl (fun s election => s.add_elected_preconfer_to_lookahead election) p).preconfer_registry
                = [] :=
            (foldl_add_preserved l p).2.trans hreg
          rcases ih _ hreg2 x hx with h1 | h2
          · exact Or.inl h1
          · exact foldl_add_entries l p hreg x h2
  intro p epoch x hx hreg
  exact main rs p hreg x hx

lemma on_new_head_event_stale (p : RelayLookaheadProvider) (s : Nat)
    (rs : List RelayFetchResult) (h : s ≤ p.context.head_slot) :
    p.on_new_head_event s rs = (p, []) := by
  simp [RelayLookaheadProvider.on_new_head_event, h]

lemma on_new_head_event_head (p : RelayLookaheadProvider) (s : Nat)
    (rs : List RelayFetchResult) :
    ((p.on_new_head_event s rs).1).context.head_slot
      = if s ≤ p.context.head_slot then p.context.head_slot else s := by
  by_cases h : s ≤ p.context.head_slot
  · rw [on_new_head_event_stale p s rs h, if_pos h]
  · rw [if_neg h]
    simp only [RelayLookaheadProvider.on_new_head_event, if_neg h]
    by_cases h6 : s % 6 = 0
    · dsimp only
      rw [if_pos h6]
      exact (fetch_preserved rs _ _).1
    · dsimp only
      rw [if_neg h6]

lemma on_new_head_event_head_mono (p : RelayLookaheadProvider) (s : Nat)
    (rs : List RelayFetchResult) :
    p.context.head_slot ≤ ((p.on_new_head_event s rs).1).context.head_slot := by
  rw [on_new_head_event_head]
  by_cases h : s ≤ p.context.head_slot
  · rw [if_pos h]
  · rw [if_neg h]
    exact Nat.le_of_lt (Nat.lt_of_not_le h)

lemma on_new_head_event_slot_le_head (p : RelayLookaheadProvider) (s : Nat)
    (rs : List RelayFetchResult) :
    s ≤ ((p.on_new_head_event s rs).1).context.head_slot := by
  rw [on_new_head_event_head]
  by_cases h : s ≤ p.context.head_slot
  · rw [if_pos h]; exact h
  · rw [if_neg h]

lemma on_new_head_event_keys (p : RelayLookaheadProvider) (s : Nat)
    (rs : List RelayFetchResult)
    (hk : ∀ k ∈ p.lookahead.tableKeys, p.context.head_slot ≤ k)
    (hel : ∀ e ∈ deliveredElections rs, s ≤ e.slot) :
    ∀ k ∈ ((p.on_new_head_event s rs).1).lookahead.tableKeys,
      ((p.on_new_head_event s rs).1).context.head_slot ≤ k := by
  by_cases h : s ≤ p.context.head_slot
  · rw [on_new_head_event_stale p s rs h]
    exact hk
  · simp only [RelayLookaheadProvider.on_new_head_event, if_neg h]
    by_cases h6 : s % 6 = 0
    · dsimp only
      rw [if_pos h6]
      intro k hkmem
      rw [(fetch_preserved rs _ _).1]
      rcases fetch_keys rs _ _ k hkmem with h1 | h2
      · exact tableKeys_clear_slots_le k h1
      · rcases h2 with ⟨e, he, hke⟩
        exact hke ▸ hel e he
    · dsimp only
      rw [if_neg h6]
      intro k hkmem
      exact tableKeys_clear_slots_le k hkmem

lemma on_new_head_event_urls (p : RelayLookaheadProvider) (s : Nat)
    (rs : List RelayFetchResult)
    (hreg : p.preconfer_registry = [])
    (hin : ∀ x ∈ p.lookahead.tableEntries, x.url = "") :
    ((p.on_new_head_event s rs).1).preconfer_registry = [] ∧
    ∀ x ∈ ((p.on_new_head_event s rs).1).lookahead.tableEntries, x.url = "" := by
  by_cases h : s ≤ p.context.head_slot
  · rw [on_new_head_event_stale p s rs h]
    exact ⟨hreg, hin⟩
  · simp only [RelayLookaheadProvider.on_new_head_event, if_neg h]
    by_cases h6 : s % 6 = 0
    · dsimp only
      rw [if_pos h6]
      constructor
      · exact (fetch_preserved rs _ _).2.trans hreg
      · intro x hx
        rcases fetch_entries rs _ _ x hx hreg with h1 | h2
        · exact h1
        · exact hin x (tableEntries_clear_slots_subset x h2)
    · dsimp only
      rw [if_neg h6]
      refine ⟨hreg, ?_⟩
      intro x hx
      exact hin x (tableEntries_clear_slots_subset x hx)

lemma processEvents_head_mono (events : List (Nat × List RelayFetchResult)) :
    ∀ p : RelayLookaheadProvider,
      p.context.head_slot ≤ (p.processEvents events).context.head_slot := by
  induction events with
  | nil => intro p; exact Nat.le_refl _
  | cons ev rest ih =>
    intro p
    simp only [RelayLookaheadProvider.processEvents, List.foldl_cons]
    exact Nat.le_trans (on_new_head_event_head_mono p ev.1 ev.2)
      (ih ((p.on_new_head_event ev.1 ev.2).1))

lemma processEvents_keys (events : List (Nat × List RelayFetchResult)) :
    ∀ p : RelayLookaheadProvider,
      (∀ k ∈ p.lookahead.tableKeys, p.context.head_slot ≤ k) →
      (∀ ev ∈ events, ∀ e ∈ deliveredElections ev.2, ev.1 ≤ e.slot) →
      (∀ k ∈ (p.processEvents events).lookahead.tableKeys,
          (p.processEvents events).context.head_slot ≤ k) ∧
      (∀ ev ∈ events, ev.1 ≤ (p.processEvents events).context.head_slot) := by
  induction events with
  | nil =>
    intro p hk _
    exact ⟨hk, by intro ev hev; simp at hev⟩
  | cons ev rest ih =>
    intro p hk hel
    simp only [RelayLookaheadProvider.processEvents, List.foldl_cons] at *
    have hstep : ∀ k ∈ ((p.on_new_head_event ev.1 ev.2).1).lookahead.tableKeys,
        ((p.on_new_head_event ev.1 ev.2).1).context.head_slot ≤ k :=
      on_new_head_event_keys p ev.1 ev.2 hk
        (hel ev (List.mem_cons_self _ _))
    have hrest : ∀ ev2 ∈ rest, ∀ e ∈ deliveredElections ev2.2, ev2.1 ≤ e.slot := by
      intro ev2 hev2
      exact hel ev2 (List.mem_cons_of_mem _ hev2)
    rcases ih ((p.on_new_head_event ev.1 ev.2).1) hstep hrest with ⟨h1, h2⟩
    refine ⟨h1, ?_⟩
    intro ev2 hev2
    rcases List.mem_cons.mp hev2 with h3 | h4
    · subst h3
      exact Nat.le_trans (on_new_head_event_slot_le_head p ev2.1 ev2.2)
        (processEvents_head_mono rest _)
    · exact h2 ev2 h4

lemma processEvents_urls (events : List (Nat × List RelayFetchResult)) :
    ∀ p : RelayLookaheadProvider,
      p.preconfer_registry = [] →
      (∀ x ∈ p.lookahead.tableEntries, x.url = "") →
      ∀ x ∈ (p.processEvents events).lookahead.tableEntries, x.url = "" := by
  induction events with
  | nil => intro p _ hin; exact hin
  | cons ev rest ih =>
    intro p hreg hin
    simp only [RelayLookaheadProvider.processEvents, List.foldl_cons] at *
    rcases on_new_head_event_urls p ev.1 ev.2 hreg hin with ⟨h1, h2⟩
    exact ih ((p.on_new_head_event ev.1 ev.2).1) h1 h2

lemma managers_from_config_fold_none (entries : List ConfigLookahead) :
    entries.foldl
      (fun acc r_c =>
        match acc with
        | none => none
        | some map =>
          let lookahead := Lookahead.Multi []
          let provider :=
            LookaheadProvider.Relay (RelayLookaheadProvider.new lookahead r_c.relays [])
          match r_c.provider with
          | .Lookahead =>
            some (assocInsert map r_c.chain_id
              (LookaheadManager.new lookahead provider .LookaheadEntry))
          | .Registry =>
            match r_c.registry with
            | some reg =>
              some (assocInsert map r_c.chain_id
                (LookaheadManager.new lookahead provider (.UrlMap reg)))
            | none => none)
      none = none := by
  induction entries with
  | nil => rfl
  | cons r rest ih => simpa [List.foldl_cons] using ih

lemma managers_from_config_fold :
    ∀ (entries : List ConfigLookahead) (acc ms : List (Nat × LookaheadManager)),
      entries.foldl
        (fun acc r_c =>
          match acc with
          | none => none
          | some map =>
            let lookahead := Lookahead.Multi []
            let provider :=
              LookaheadProvider.Relay (RelayLookaheadProvider.new lookahead r_c.relays [])
            match r_c.provider with
            | .Lookahead =>
              some (assocInsert map r_c.chain_id
                (LookaheadManager.new lookahead provider .LookaheadEntry))
            | .Registry =>
              match r_c.registry with
              | some reg =>
                some (assocInsert map r_c.chain_id
                  (LookaheadManager.new lookahead provider (.UrlMap reg)))
              | none => none)
        (some acc) = some ms →
      (∀ x ∈ acc, ∃ p : RelayLookaheadProvider,
          x.2.provider_manager = some (.Initialized (.Relay p)) ∧
          p.preconfer_registry = [] ∧ p.lookahead = .Multi []) →
      ∀ x ∈ ms, ∃ p : RelayLookaheadProvider,
          x.2.provider_manager = some (.Initialized (.Relay p)) ∧
          p.preconfer_registry = [] ∧ p.lookahead = .Multi [] := by
  intro entries
  induction entries with
  | nil =>
    intro acc ms hfold hacc
    simp only [List.foldl_nil, Option.some_inj] at hfold
    exact hfold ▸ hacc
  | cons r_c rest ih =>
    intro acc ms hfold hacc
    obtain ⟨cid, relays, reg, prov⟩ := r_c
    cases prov with
    | Lookahead =>
      simp only [List.foldl_cons] at hfold
      refine ih _ ms hfold ?_
      intro x hx
      rcases mem_assocInsert x hx with h1 | h2
      · refine ⟨RelayLookaheadProvider.new (.Multi []) relays [], ?_, rfl, rfl⟩
        rw [h1]
        rfl
      · exact hacc x h2
    | Registry =>
      cases reg with
      | none =>
        simp only [List.foldl_cons] at hfold
        rw [managers_from_config_fold_none rest] at hfold
        exact absurd hfold (by simp)
      | some reg =>
        simp only [List.foldl_cons] at hfold
        refine ih _ ms hfold ?_
        intro x hx
        rcases mem_assocInsert x hx with h1 | h2
        · refine ⟨RelayLookaheadProvider.new (.Multi []) relays [], ?_, rfl, rfl⟩
          rw [h1]
          rfl
        · exact hacc x h2

/-- C1 counterexample: the claim as stated fails on the code.  Starting
from a fresh provider (empty table, head_slot 0), a head event with
slot 6 triggers the modulo-6 fetch, and a relay reply carrying an
election whose slot_number is 3 is inserted unsanitised after the
clear_slots call, so after processing the event with slot 6 the table
holds the slot key 3 < 6. -/
theorem relay_injected_entry_below_head :
    3 ∈ ((freshRelayProvider.on_new_head_event 6
        [.ok (some [electionAt 3])]).1).lookahead.tableKeys ∧ 3 < 6 := by
  decide

/-- C1 (amended): for every run of the provider over a sequence of head
events, if initially every table key is at least the provider head_slot
and every election delivered by the relays during an event carries a
slot_number at least that event's slot (as elections for a later epoch
always do), then afterwards every table key is at least the final
head_slot, and in particular no key is below the slot of any processed
head event. -/
theorem processEvents_prunes_below_head :
    ∀ (p : RelayLookaheadProvider) (events : List (Nat × List RelayFetchResult)),
      (∀ k ∈ p.lookahead.tableKeys, p.context.head_slot ≤ k) →
      (∀ ev ∈ events, ∀ e ∈ deliveredElections ev.2, ev.1 ≤ e.slot) →
      (∀ k ∈ (p.processEvents events).lookahead.tableKeys,
          (p.processEvents events).context.head_slot ≤ k) ∧
      (∀ ev ∈ events, ∀ k ∈ (p.processEvents events).lookahead.tableKeys,
          ev.1 ≤ k) := by
  intro p events hk hel
  rcases processEvents_keys events p hk hel with ⟨h1, h2⟩
  refine ⟨h1, ?_⟩
  intro ev hev k hkmem
  exact Nat.le_trans (h2 ev hev) (h1 k hkmem)

/-- C1 witness: one head event with slot 6 whose relay reply elects a
preconfer for slot 32; the key 32 stays and satisfies the bound. -/
theorem processEvents_prunes_below_head_witness :
    32 ∈ ((freshRelayProvider.processEvents
        [(6, [.ok (some [electionAt 32])])]).lookahead.tableKeys) ∧ 6 ≤ 32 :=
  ⟨by decide,
    (processEvents_prunes_below_head freshRelayProvider
        [(6, [.ok (some [electionAt 32])])] (by decide) (by decide)).2
      (6, [.ok (some [electionAt 32])]) (by decide) 32 (by decide)⟩

/-- C2 counterexample: the claim as stated fails on the code.  A table
reachable through the public insert API can store an entry under a key
that differs from the entry's election slot; on the state with key 0
holding a slot-10 entry and key 1 holding a slot-0 entry, the minimum
slot key is 0 and its entry is the slot-10 entry, yet the lookup
returns the slot-0 entry because the source minimises the value's
election slot, not the map key. -/
theorem get_next_elected_preconfer_ignores_keys :
    mismatchedTable = .Multi [(0, entryAt 10), (1, entryAt 0)] ∧
    mismatchedTable.get_next_elected_preconfer = some (entryAt 0) ∧
    List.lookup 0 [(0, entryAt 10), (1, entryAt 0)] = some (entryAt 10) ∧
    entryAt 0 ≠ entryAt 10 := by
  decide

/-- C2 (amended): on a Multi table every entry of which is stored under
its own election slot (as every writer in the program does), the lookup
returns none exactly on the empty table, and any returned entry is
stored in the table under its slot, which is the minimum of all slot
keys present. -/
theorem get_next_elected_preconfer_min :
    ∀ (m : List (Nat × LookaheadEntry)),
      (∀ q ∈ m, q.1 = q.2.slot) →
      ((Lookahead.Multi m).get_next_elected_preconfer = none ↔ m = []) ∧
      (∀ e, (Lookahead.Multi m).get_next_elected_preconfer = some e →
        (e.slot, e) ∈ m ∧ ∀ k ∈ (Lookahead.Multi m).tableKeys, e.slot ≤ k) := by
  intro m hkey
  constructor
  · simp only [Lookahead.get_next_elected_preconfer, Option.map_eq_none']
    exact minBySlot_eq_none
  · intro e he
    simp only [Lookahead.get_next_elected_preconfer, Option.map_eq_some'] at he
    rcases he with ⟨pq, hpq, hpe⟩
    rcases minBySlot_spec pq hpq with ⟨hmem, hmin⟩
    have hk1 : pq.1 = pq.2.slot := hkey pq hmem
    constructor
    · have hpair : (e.slot, e) = pq := by
        subst hpe
        rw [← hk1]
      rw [hpair]
      exact hmem
    · intro k hkmem
      simp only [Lookahead.tableKeys, List.mem_map] at hkmem
      rcases hkmem with ⟨q, hq, hqk⟩
      rw [← hpe, ← hqk, hkey q hq]
      exact hmin q hq

/-- C2 witness: a well-keyed two-entry table is non-empty, so the lookup
does not return none. -/
theorem get_next_elected_preconfer_min_witness :
    (Lookahead.Multi [(5, entryAt 5), (7, entryAt 7)]).get_next_elected_preconfer = none
      ↔ [(5, entryAt 5), (7, entryAt 7)] = [] :=
  (get_next_elected_preconfer_min [(5, entryAt 5), (7, entryAt 7)] (by decide)).1

/-- C3: a head event whose slot is at most the provider's current
head_slot is a complete no-op (unchanged state and no relay fetch);
consequently head_slot never decreases, and redelivering a slot that
has just been processed changes nothing and issues no further fetch. -/
theorem stale_head_events_are_ignored :
    (∀ (p : RelayLookaheadProvider) (s : Nat) (rs : List RelayFetchResult),
        s ≤ p.context.head_slot → p.on_new_head_event s rs = (p, [])) ∧
    (∀ (p : RelayLookaheadProvider) (s : Nat) (rs : List RelayFetchResult),
        p.context.head_slot ≤ ((p.on_new_head_event s rs).1).context.head_slot) ∧
    (∀ (p : RelayLookaheadProvider) (s : Nat) (rs rs2 : List RelayFetchResult),
        ((p.on_new_head_event s rs).1).on_new_head_event s rs2
          = (((p.on_new_head_event s rs).1), [])) := by
  refine ⟨on_new_head_event_stale, on_new_head_event_head_mono, ?_⟩
  intro p s rs rs2
  exact on_new_head_event_stale _ s rs2 (on_new_head_event_slot_le_head p s rs)

/-- C3 witness: a slot-0 event on a fresh provider (head_slot 0) is
dropped whole. -/
theorem stale_head_events_are_ignored_witness :
    freshRelayProvider.on_new_head_event 0 [.ok (some [electionAt 9])]
      = (freshRelayProvider, []) :=
  stale_head_events_are_ignored.1 freshRelayProvider 0 [.ok (some [electionAt 9])]
    (by decide)

/-- C4: when the chain id resolves to a manager and the manager resolves
a URL, the handler issues the outbound POST to that URL with the
incoming body and headers unchanged; a completed upstream exchange is
answered 200 with exactly the upstream body bytes whatever the upstream
status was, and a transport failure of the send or of the body read is
answered 500 with the fixed error text. -/
theorem forward_known_chain_proxies_verbatim :
    ∀ (managers : List (Nat × LookaheadManager)) (chain_id : Nat)
      (headers : Headers) (body : Bytes) (parse : String → Option Url)
      (upstream : Except Unit UpstreamResponse) (mgr : LookaheadManager) (url : Url),
      managers.lookup chain_id = some mgr →
      mgr.get_url parse = .ok url →
      ((scan_id_forward_request managers chain_id headers body parse upstream).1
          = some { to_addr := url, body := body, headers := headers }) ∧
      (∀ status b, upstream = .ok { status := status, body_result := .ok b } →
        (scan_id_forward_request managers chain_id headers body parse upstream).2
          = .response { status := 200, body := .raw b }) ∧
      (upstream = .error () →
        (scan_id_forward_request managers chain_id headers body parse upstream).2
          = .response { status := 500, body := .text "error while forwarding request" }) ∧
      (∀ status, upstream = .ok { status := status, body_result := .error () } →
        (scan_id_forward_request managers chain_id headers body parse upstream).2
          = .response { status := 500, body := .text "error while forwarding request" }) := by
  intro managers chain_id headers body parse upstream mgr url hmgr hurl
  refine ⟨?_, ?_, ?_, ?_⟩
  · cases hinner : inner_forward_request upstream <;>
      simp [scan_id_forward_request, hmgr, hurl, hinner]
  · intro status b hup
    subst hup
    simp [scan_id_forward_request, hmgr, hurl, inner_forward_request]
  · intro hup
    subst hup
    simp [scan_id_forward_request, hmgr, hurl, inner_forward_request]
  · intro status hup
    subst hup
    simp [scan_id_forward_request, hmgr, hurl, inner_forward_request]

/-- C4 witness: a known chain whose next entry has a parseable url, an
upstream 404 with body bytes, answered 200 with those bytes. -/
theorem forward_known_chain_proxies_verbatim_witness :
    (scan_id_forward_request [(1, goodUrlManager)] 1 [("h", "v")] [1, 2]
        url_from_str (.ok { status := 404, body_result := .ok [9] })).2
      = .response { status := 200, body := .raw [9] } :=
  (forward_known_chain_proxies_verbatim [(1, goodUrlManager)] 1 [("h", "v")] [1, 2]
      url_from_str (.ok { status := 404, body_result := .ok [9] }) goodUrlManager
      { text := "http://upstream" } (by decide) (by decide)).2.1 404 [9] rfl

/-- C5 counterexample: the claim as stated fails on the code.  The
source never checks for a non-2xx status: on a 500 response whose body
decodes as a SignedPreconferElection it returns the election as a
success instead of failing. -/
theorem get_elected_preconfer_for_slot_decodes_non2xx :
    get_elected_preconfer_for_slot (fun _ => some (electionAt 5)) (.response 500 "body")
      = .ok (some (electionAt 5)) ∧ 300 ≤ 500 := by
  decide

/-- C5 (amended): the per-slot fetch returns none exactly on status 204,
fails on a transport error, and for every other status (2xx or not)
decodes the JSON body, succeeding when the body decodes and failing
when it does not. -/
theorem get_elected_preconfer_for_slot_status_handling :
    ∀ (decodeElection : String → Option SignedPreconferElection)
      (status : Nat) (body : String),
      (get_elected_preconfer_for_slot decodeElection .transport_error
          = .error .ReqwestError) ∧
      (status = 204 →
        get_elected_preconfer_for_slot decodeElection (.response status body)
          = .ok none) ∧
      (status ≠ 204 → decodeElection body = none →
        get_elected_preconfer_for_slot decodeElection (.response status body)
          = .error .ReqwestError) ∧
      (∀ e, status ≠ 204 → decodeElection body = some e →
        get_elected_preconfer_for_slot decodeElection (.response status body)
          = .ok (some e)) := by
  intro decodeElection status body
  refine ⟨rfl, ?_, ?_, ?_⟩
  · intro h
    simp [get_elected_preconfer_for_slot, h]
  · intro h hd
    simp [get_elected_preconfer_for_slot, h, hd]
  · intro e h hd
    simp [get_elected_preconfer_for_slot, h, hd]

/-- C5 witness: a 204 reply maps to a successful none. -/
theorem get_elected_preconfer_for_slot_status_handling_witness :
    get_elected_preconfer_for_slot (fun _ => none) (.response 204 "") = .ok none :=
  (get_elected_preconfer_for_slot_status_handling (fun _ => none) 204 "").2.1 rfl

/-- C6 counterexample: the claim as stated fails on the code.  On a
manager in LookaheadEntry mode whose next entry has an empty url, the
source hits the expect on Url::from_str and panics instead of
returning an error. -/
theorem get_url_empty_url_panics :
    (entryAt 0).url = "" ∧
    emptyUrlManager.lookahead.get_next_elected_preconfer = some (entryAt 0) ∧
    emptyUrlManager.get_url url_from_str = .panicked "not a valid url" := by
  decide

/-- C6 (amended): in LookaheadEntry mode, for the entry returned by the
table, get_url returns the parsed entry url when it parses, and panics
on the expect (rather than returning an error) when the entry url is
empty or otherwise fails to parse. -/
theorem get_url_lookahead_entry_mode :
    ∀ (mgr : LookaheadManager) (entry : LookaheadEntry) (parse : String → Option Url),
      mgr.url_provider = .LookaheadEntry →
      mgr.lookahead.get_next_elected_preconfer = some entry →
      (∀ u, parse entry.url = some u → mgr.get_url parse = .ok u) ∧
      (parse entry.url = none →
        mgr.get_url parse = .panicked "not a valid url") := by
  intro mgr entry parse hmode hnext
  constructor
  · intro u hu
    simp [LookaheadManager.get_url, hnext, hmode, hu]
  · intro hu
    simp [LookaheadManager.get_url, hnext, hmode, hu]

/-- C6 witness: an entry whose url parses is resolved to that url. -/
theorem get_url_lookahead_entry_mode_witness :
    goodUrlManager.get_url url_from_str = .ok { text := "http://upstream" } :=
  (get_url_lookahead_entry_mode goodUrlManager (entryAtUrl 100 "http://upstream")
      url_from_str rfl (by decide)).1 { text := "http://upstream" } (by decide)

/-- C7 counterexample: the claim as stated fails on the code.  A config
section in registry mode whose registry table is present but empty is
accepted by the parser, which only checks presence. -/
theorem empty_registry_accepted :
    emptyRegistryHelper.url_provider = .Registry ∧
    emptyRegistryHelper.registry = some [] ∧
    deserializeLookahead emptyRegistryHelper
      = .ok { chain_id := 1, relays := [], registry := some [], provider := .Registry } := by
  decide

/-- C7 (amended): the parser rejects url-provider registry exactly when
the registry field is absent; whenever a registry is present (even
empty) or the mode is lookahead, parsing succeeds with the fields
copied over. -/
theorem registry_rejected_only_when_absent :
    ∀ helper : LookaheadHelper,
      (helper.url_provider = .Registry → helper.registry = none →
        deserializeLookahead helper
          = .error "registry map is mandatory when url-provider is set to registry") ∧
      (helper.registry ≠ none →
        deserializeLookahead helper
          = .ok { chain_id := helper.chain_id, relays := helper.relays,
                  registry := helper.registry, provider := helper.url_provider }) ∧
      (helper.url_provider = .Lookahead →
        deserializeLookahead helper
          = .ok { chain_id := helper.chain_id, relays := helper.relays,
                  registry := helper.registry, provider := helper.url_provider }) := by
  intro helper
  obtain ⟨cid, relays, reg, prov⟩ := helper
  cases prov <;> cases reg <;> simp [deserializeLookahead]

/-- C7 witness: a registry-mode section with an absent registry is
rejected with the fixed error message. -/
theorem registry_rejected_only_when_absent_witness :
    deserializeLookahead
        { chain_id := 1, relays := ["relay"], registry := none, url_provider := .Registry }
      = .error "registry map is mandatory when url-provider is set to registry" :=
  (registry_rejected_only_when_absent
      { chain_id := 1, relays := ["relay"], registry := none, url_provider := .Registry }).1
    rfl rfl

/-- C8: evaluation of the code at the failing input.  With three clients
of ids 0, 1, 2 and best instance 2, the source's Vec::swap places the
former head at position 2, producing the order 2, 1, 0, whereas the
function's doc comment (and the claim) promise the remaining clients
keep their original order, which would be 2, 0, 1. -/
theorem beacon_clients_swap_reorders_rest :
    beacon_clients_by_last_response [(0, "a"), (1, "b"), (2, "c")] 2
      = some [(2, "c"), (1, "b"), (0, "a")] ∧
    some [(2, "c"), (1, "b"), (0, "a")] ≠ some [(2, "c"), (0, "a"), (1, "b")] := by
  decide

/-- C9: calling run_provider on a manager whose provider is already
running returns the bail error while the take() has left the
provider-manager field none, so the very next call panics on the
expect. -/
theorem run_provider_running_error_then_panic :
    ∀ mgr : LookaheadManager, mgr.provider_manager = some .Running →
      ((mgr.run_provider).1 = .error "context provider is already running.") ∧
      ((mgr.run_provider).2).provider_manager = none ∧
      (((mgr.run_provider).2).run_provider).1
        = .panicked "provider manager should never be None" := by
  intro mgr h
  refine ⟨?_, ?_, ?_⟩ <;> simp [LookaheadManager.run_provider, h]

/-- C9 witness: the concrete running manager errors, is left empty, and
panics on the next call. -/
theorem run_provider_running_error_then_panic_witness :
    ((runningManager.run_provider).1
        = .error "context provider is already running.") ∧
    ((runningManager.run_provider).2).provider_manager = none ∧
    (((runningManager.run_provider).2).run_provider).1
      = .panicked "provider manager should never be None" :=
  run_provider_running_error_then_panic runningManager (by decide)

/-- C10: every manager built by lookahead_managers_from_config carries a
relay provider constructed with the empty preconfer registry over an
empty table, and therefore every entry such a provider ever writes into
its lookahead over any run has the empty string as url. -/
theorem config_built_providers_insert_empty_urls :
    ∀ (config : Config) (ms : List (Nat × LookaheadManager)),
      lookahead_managers_from_config config = some ms →
      ∀ x ∈ ms, ∃ p : RelayLookaheadProvider,
        x.2.provider_manager = some (.Initialized (.Relay p)) ∧
        p.preconfer_registry = [] ∧
        p.lookahead = .Multi [] ∧
        ∀ (events : List (Nat × List RelayFetchResult)),
          ∀ e ∈ (p.processEvents events).lookahead.tableEntries, e.url = "" := by
  intro config ms hconf x hx
  unfold lookahead_managers_from_config at hconf
  have h := managers_from_config_fold config.lookahead_providers_relays [] ms hconf
    (by intro y hy; simp at hy) x hx
  rcases h with ⟨p, h1, h2, h3⟩
  refine ⟨p, h1, h2, h3, ?_⟩
  intro events e he
  refine processEvents_urls events p h2 ?_ e he
  rw [h3]
  intro y hy
  simp [Lookahead.tableEntries] at hy

/-- C10 witness: running the provider built from a one-chain config
over a head event whose relay reply elects a preconfer for slot 40
leaves that entry with an empty url. -/
theorem config_built_providers_insert_empty_urls_witness :
    (entryAt 40).url = "" := by
  rcases config_built_providers_insert_empty_urls oneChainConfig
      [(1, LookaheadManager.new (.Multi [])
        (.Relay (RelayLookaheadProvider.new (.Multi []) ["relay"] []))
        .LookaheadEntry)]
      rfl
      (1, LookaheadManager.new (.Multi [])
        (.Relay (RelayLookaheadProvider.new (.Multi []) ["relay"] []))
        .LookaheadEntry)
      (by decide) with ⟨p, h1, h2, h3, h4⟩
  have hp : RelayLookaheadProvider.new (.Multi []) ["relay"] [] = p := by
    simpa [LookaheadManager.new] using h1
  exact h4 [(6, [.ok (some [electionAt 40])])] (entryAt 40)
    (by rw [← hp]; decide)

end PreconfRpc
